import Mathlib

/-!
Shallow embedding of the `json-ref-dict` library (URI address model,
reference-following pointer resolution with memoizing caches, lazy
`RefDict`/`RefList` views, and the eager `materialize` flattening pass),
together with theorems settling the specification claims.

Conventions of the embedding:
* Parsed documents are modelled by the inductive `JSON`.  Python `dict`s
  become association lists in insertion order (real documents have unique
  keys); Python exceptions become the `Err` error type threaded through
  `Except`.
* The `lru_cache` layers and the loader call log are modelled by an explicit
  `CacheState` threaded through every function; `lru_cache` stores only
  successful results (Python does not cache raised exceptions).
* Unbounded recursion through `$ref` redirects (possible in the real code,
  see the spec's open question) is modelled with a fuel parameter; running
  out of fuel produces the distinguished error `Err.recursionError`, which
  models Python's `RecursionError` and is never caught anywhere.
-/

namespace JsonRefDict

/-- Parsed document tree (JSON/YAML value).  `endOfList` models the opaque
`EndOfList` marker object the `jsonpointer` library returns for the RFC 6901
`-` segment; it never occurs inside loaded documents. -/
inductive JSON where
  | null : JSON
  | bool (b : Bool) : JSON
  | num (n : Int) : JSON
  | str (s : String) : JSON
  | arr (xs : List JSON) : JSON
  | obj (kvs : List (String × JSON)) : JSON
  | endOfList : JSON
deriving Repr

/-- Python exceptions raised by the library and its dependencies.
`jsonPointerException` is the navigation error (`jsonpointer` library);
`constructionTypeError` models the `TypeError` raised by `RefDict`/`RefList`
construction, carrying the address and the offending value (the Python
message interpolates both); `typeError` covers other `TypeError`s;
`recursionError` models Python's `RecursionError` (fuel exhaustion). -/
inductive Err where
  | referenceParseError (msg : String) : Err
  | documentParseError (msg : String) : Err
  | jsonPointerException (msg : String) : Err
  | constructionTypeError (uri_base : Option String) (uri_name : String)
      (pointer : String) (got : JSON) : Err
  | typeError (msg : String) : Err
  | keyError (msg : String) : Err
  | indexError (msg : String) : Err
  | valueError (msg : String) : Err
  | recursionError : Err
deriving Repr

/-! ### Character-level string helpers

These model the Python standard-library string operations used by the
source, written structurally so that closed instances reduce by `rfl`. -/

/-- Embeds `str.split(sep)` on a single-character separator. -/
def splitOnChar (sep : Char) : List Char → List (List Char)
  | [] => [[]]
  | c :: rest =>
    let r := splitOnChar sep rest
    if c = sep then [] :: r
    else
      match r with
      | [] => [[c]]
      | g :: gs => (c :: g) :: gs

/-- Embeds `posixpath.join` on two components (the loop body of `posixpath.join`). -/
def posixJoin2 (a b : String) : String :=
  if b.data.head? = some '/' then b
  else if a.data = [] || a.data.getLast? = some '/' then a ++ b
  else a ++ "/" ++ b

/-- Characters permitted in a URL scheme by `urllib.parse`
(`scheme_chars`: letters, digits, `+`, `-`, `.`). -/
def schemeChar (c : Char) : Bool :=
  c.isAlpha || c.isDigit || c = '+' || c = '-' || c = '.'

/-- Embeds `json_ref_dict.uri.is_absolute`: true iff `urlparse(ref)` detects a
scheme, i.e. the first `:` occurs at position `i > 0`, the first character
is an ASCII letter and everything before the `:` is a scheme character
(CPython `urlsplit`). -/
def is_absolute (ref : String) : Bool :=
  match ref.data with
  | [] => false
  | c :: _ =>
    let pre := ref.data.takeWhile (fun ch => ch ≠ ':')
    decide (pre.length < ref.data.length) && decide (0 < pre.length)
      && c.isAlpha && decide (c.val < 128) && pre.all schemeChar

/-- RFC 6901 escaping of one segment: `~` becomes `~0`, then `/` becomes
`~1` (`json_ref_dict.uri.parse_segment`, written as one structural pass,
equivalent because the replacements neither create nor destroy each
other's patterns). -/
def escapeChars : List Char → List Char
  | [] => []
  | '~' :: rest => '~' :: '0' :: escapeChars rest
  | '/' :: rest => '~' :: '1' :: escapeChars rest
  | c :: rest => c :: escapeChars rest

/-- Embeds `json_ref_dict.uri.parse_segment`. -/
def parse_segment (segment : String) : String :=
  String.mk (escapeChars segment.data)

/-- RFC 6901 unescaping of one segment: `~1` to `/` then `~0` to `~`
(the `jsonpointer` library's `unescape`, as one structural pass). -/
def unescapeChars : List Char → List Char
  | [] => []
  | '~' :: '1' :: rest => '/' :: unescapeChars rest
  | '~' :: '0' :: rest => '~' :: unescapeChars rest
  | c :: rest => c :: unescapeChars rest

/-- The `jsonpointer` library's `unescape`. -/
def unescape (part : String) : String :=
  String.mk (unescapeChars part.data)

/-- Hex digit value, for percent-decoding. -/
def hexVal (c : Char) : Option Nat :=
  if '0' ≤ c ∧ c ≤ '9' then some (c.toNat - '0'.toNat)
  else if 'a' ≤ c ∧ c ≤ 'f' then some (c.toNat - 'a'.toNat + 10)
  else if 'A' ≤ c ∧ c ≤ 'F' then some (c.toNat - 'A'.toNat + 10)
  else none

/-- Embeds `urllib.parse.unquote`: decode `%XX` escapes, leaving malformed escapes
untouched.  (Decoded bytes are mapped directly to code points; this agrees
with CPython on ASCII escapes, the only ones the library's tests exercise.) -/
def unquoteChars : List Char → List Char
  | '%' :: a :: b :: rest =>
    match hexVal a, hexVal b with
    | some x, some y => Char.ofNat (16 * x + y) :: unquoteChars rest
    | _, _ => '%' :: unquoteChars (a :: b :: rest)
  | c :: rest => c :: unquoteChars rest
  | [] => []

/-- Embeds `urllib.parse.unquote` on a string. -/
def unquote (s : String) : String :=
  String.mk (unquoteChars s.data)

/-! ### The URI address model (`json_ref_dict/uri.py`) -/

/-- Embeds `json_ref_dict.uri.URI`: a NamedTuple of `uri_base` (the regex group is
`None` when absent, hence `Option`), `uri_name` and `pointer`.  Equality is
componentwise, as for Python NamedTuples. -/
structure URI where
  uri_base : Option String
  uri_name : String
  pointer : String
deriving DecidableEq, Repr

/-- Split a character list at the last occurrence of `#` that is immediately
followed by `/`, returning the prefix before the `#` and the suffix from the
`/` on.  This is where the greedy regex
`^((?P<uri_base>.*)\/)?(?P<uri_name>.*)#(?P<pointer>\/.*)$` puts the `#`. -/
def splitLastHashSlash : List Char → Option (List Char × List Char)
  | [] => none
  | c :: rest =>
    match splitLastHashSlash rest with
    | some (p, ptr) => some (c :: p, ptr)
    | none =>
      if c = '#' then
        match rest with
        | '/' :: _ => some ([], rest)
        | _ => none
      else none

/-- Split a character list at the last `/`, returning the parts before and
after it; `none` when there is no `/`.  This is where the greedy regex puts
the `/` ending the optional `uri_base` group. -/
def splitLastSlash : List Char → Option (List Char × List Char)
  | [] => none
  | c :: rest =>
    match splitLastSlash rest with
    | some (a, b) => some (c :: a, b)
    | none => if c = '/' then some ([], rest) else none

/-- Embeds `URI.from_string`: append `#/` when no `#` is present, append `/` to a
trailing `#`, then match `JSON_REF_REGEX` (the greedy match puts the break
at the last `#` followed by `/`, and the base/name break at the last `/`
before it); a string that still fails to match raises
`ReferenceParseError`. -/
def URI.from_string (string : String) : Except Err URI :=
  let s1 := if string.data.contains '#' then string else string ++ "#/"
  let s := if s1.data.getLast? = some '#' then s1 ++ "/" else s1
  match splitLastHashSlash s.data with
  | none =>
    .error (.referenceParseError
      ("Failed to parse " ++ s ++ " as a valid reference."))
  | some (p, ptr) =>
    match splitLastSlash p with
    | some (a, b) => .ok ⟨some (String.mk a), String.mk b, String.mk ptr⟩
    | none => .ok ⟨none, String.mk p, String.mk ptr⟩

/-- Embeds `URI.root`: `path.join(*filter(None, [uri_base, uri_name]))`.  When both
components are falsy, `path.join` gets no arguments and raises `TypeError`,
modelled by `none`. -/
def URI.root? (u : URI) : Option String :=
  match u.uri_base with
  | some b =>
    if b = "" then (if u.uri_name = "" then none else some u.uri_name)
    else if u.uri_name = "" then some b
    else some (posixJoin2 b u.uri_name)
  | none => if u.uri_name = "" then none else some u.uri_name

/-- Embeds `URI.__repr__`: `self.root + "#" + self.pointer` (raises when `root`
does). -/
def URI.reprStr (u : URI) : Except Err String :=
  match u.root? with
  | none => .error (.typeError "path.join needs at least one argument")
  | some r => .ok (r ++ "#" ++ u.pointer)

/-- Embeds `URI._get_relative`: a reference whose part before `#` is empty is local
(same document, pointer from the fragment, defaulting to `/`; Python's
`reference.split("#")[1]` raises `IndexError` on a plain empty reference);
otherwise the reference is joined onto `uri_base` and re-parsed. -/
def URI.get_relative (u : URI) (reference : String) : Except Err URI :=
  match splitOnChar '#' reference.data with
  | [] => .error (.indexError "list index out of range")
  | first :: rest =>
    if first = [] then
      match rest with
      | [] => .error (.indexError "string index out of range")
      | second :: _ =>
        let ptr := if second = [] then "/" else String.mk second
        .ok ⟨u.uri_base, u.uri_name, ptr⟩
    else
      let joined :=
        match u.uri_base with
        | some b => if b = "" then reference else posixJoin2 b reference
        | none => reference
      URI.from_string joined

/-- The relative-resolution computation of `URI.relative` before its
self-reference guard: parse absolute references independently, otherwise
resolve against the current root. -/
def URI.relativeRaw (u : URI) (reference : String) : Except Err URI :=
  if is_absolute reference then URI.from_string reference
  else u.get_relative reference

/-- Message of the self-reference guard error. -/
def selfRefMsg : String :=
  "Reference is self-referential. Cannot resolve."

/-- Embeds `URI.relative`: compute the relative resolution and reject a result
equal to the current address with `ReferenceParseError`. -/
def URI.relative (u : URI) (reference : String) : Except Err URI :=
  match u.relativeRaw reference with
  | .error e => .error e
  | .ok r => if r = u then .error (.referenceParseError selfRefMsg) else .ok r

/-- Embeds `URI.get`: extend the pointer by `path.join(self.pointer, *segments)`. -/
def URI.get (u : URI) (segs : List String) : URI :=
  { u with pointer := segs.foldl posixJoin2 u.pointer }

/-! ### The `jsonpointer` library layer

`RefPointer` subclasses `jsonpointer.JsonPointer`; the constructor parses
the pointer into parts and `walk` performs one navigation step. -/

/-- The `jsonpointer` invalid-escape check: regex `(~[^01]|~$)` found in the
pointer. -/
def hasInvalidEscape : List Char → Bool
  | [] => false
  | ['~'] => true
  | '~' :: c :: rest =>
    (decide (c ≠ '0') && decide (c ≠ '1')) || hasInvalidEscape (c :: rest)
  | _ :: rest => hasInvalidEscape rest

/-- Embeds `JsonPointer.__init__`: reject invalid escapes, split the pointer on
`/`, require a leading empty part, and unescape the remaining parts. -/
def pointerParts (ptr : String) : Except Err (List String) :=
  if hasInvalidEscape ptr.data then
    .error (.jsonPointerException "found invalid escape")
  else
    match splitOnChar '/' ptr.data with
    | [] => .error (.jsonPointerException "location must start with /")
    | first :: rest =>
      if first = [] then .ok (rest.map (fun cs => unescape (String.mk cs)))
      else .error (.jsonPointerException "location must start with /")

/-- The `jsonpointer` sequence-index regex `0|[1-9][0-9]*$` under
`re.match`: anything starting with `0` matches the first alternative;
otherwise the part must be a nonzero decimal numeral. -/
def arrayIndexMatch (s : String) : Bool :=
  match s.data with
  | [] => false
  | c :: rest => c = '0' || (c.isDigit && rest.all Char.isDigit)

/-- Python `int(s)` restricted to the strings that can reach it here:
defined exactly on all-digit strings.  (Strings passing `arrayIndexMatch`
but containing non-digits, such as `0x`, raise `ValueError` in Python,
modelled by `none`.) -/
def decDigits? (s : String) : Option Nat :=
  if s.data ≠ [] && s.data.all Char.isDigit then
    some (s.data.foldl (fun n c => 10 * n + (c.toNat - 48)) 0)
  else none

/-- Embeds `JsonPointer.get_part` followed by the indexing of `JsonPointer.walk`:
mappings are indexed by the literal part; sequences require the part to
match the index regex (then `int` it) or be `-`; anything else does not
support indexing. -/
def walkRaw (doc : JSON) (part : String) : Except Err JSON :=
  match doc with
  | .obj kvs =>
    match kvs.lookup part with
    | some v => .ok v
    | none => .error (.jsonPointerException ("member " ++ part ++ " not found"))
  | .arr xs =>
    if part = "-" then .ok .endOfList
    else if arrayIndexMatch part then
      match decDigits? part with
      | some i =>
        match xs.get? i with
        | some v => .ok v
        | none =>
          .error (.jsonPointerException ("index " ++ part ++ " is out of bounds"))
      | none => .error (.valueError ("invalid literal for int: " ++ part))
    else
      .error (.jsonPointerException (part ++ " is not a valid sequence index"))
  | _ => .error (.jsonPointerException "document does not support indexing")

/-- One step of `RefPointer.resolve_with_uri`'s walk: try the literal part,
and on `JsonPointerException` retry with the percent-decoded part (other
exceptions propagate). -/
def stepWalk (doc : JSON) (part : String) : Except Err JSON :=
  match walkRaw doc part with
  | .ok v => .ok v
  | .error e =>
    match e with
    | .jsonPointerException _ => walkRaw doc (unquote part)
    | _ => .error e

/-- The reference test of `resolve_remote_with_uri`: a mapping whose `$ref`
value is a string. -/
def refOf : JSON → Option String
  | .obj kvs =>
    match kvs.lookup "$ref" with
    | some (.str s) => some s
    | _ => none
  | _ => none

/-! ### Document loading and the memoizing caches
(`json_ref_dict/loader.py`, `json_ref_dict/ref_pointer.py`)

The external byte-fetch-and-parse collaborator (`_read_document_content`)
is a parameter `fetch`; its failures carry the message that
`default_get_document` wraps into `DocumentParseError`.  The state models
the `lru_cache` of `default_get_document` (keyed by document id), of
`_resolve_cached_root_doc` and of `resolve_uri_to_urivalue_pair` (both
keyed by the full URI), plus a log of the invocations of the underlying
loader body (appended on every cache miss of `default_get_document`).
The loader registration chain is modelled in its default state (no custom
loaders registered), in which `Loader.__call__` is exactly its default
loader.  The extra `lru_cache` on `resolve_uri` caches the value component
of the already-memoized pair function and is observationally redundant, so
it is not given its own table. -/

/-- External loader collaborator: fetch and parse one document. -/
def Fetch : Type := String → Except String JSON

/-- The process-wide memoizing caches and the loader call log. -/
structure CacheState where
  resolveCache : List (URI × (URI × JSON))
  rootDocCache : List (URI × JSON)
  docCache : List (String × JSON)
  fetchLog : List String
deriving Repr

/-- The empty initial cache state. -/
def CacheState.init : CacheState := ⟨[], [], [], []⟩

/-- Embeds `loader.default_get_document`: on a cache miss run the fetch (logged),
wrapping any failure in `DocumentParseError`; `lru_cache` stores only
successful results. -/
def defaultGetDocument (fetch : Fetch) (st : CacheState) (id : String) :
    Except Err JSON × CacheState :=
  match st.docCache.lookup id with
  | some d => (.ok d, st)
  | none =>
    let st1 := { st with fetchLog := id :: st.fetchLog }
    match fetch id with
    | .ok d => (.ok d, { st1 with docCache := (id, d) :: st1.docCache })
    | .error _ =>
      (.error (.documentParseError ("Failed to load uri " ++ id ++ ".")), st1)

/-- Embeds `ref_pointer._resolve_cached_root_doc`: memoized by the full URI; load
the document at `uri.root` (whose `TypeError` propagates unwrapped),
re-wrapping `DocumentParseError` with a message naming the URI. -/
def resolveCachedRootDoc (fetch : Fetch) (st : CacheState) (uri : URI) :
    Except Err JSON × CacheState :=
  match st.rootDocCache.lookup uri with
  | some d => (.ok d, st)
  | none =>
    match uri.root? with
    | none => (.error (.typeError "path.join needs at least one argument"), st)
    | some root =>
      match defaultGetDocument fetch st root with
      | (.ok d, st1) =>
        (.ok d, { st1 with rootDocCache := (uri, d) :: st1.rootDocCache })
      | (.error (.documentParseError _), st1) =>
        (.error (.documentParseError "Failed to load base document."), st1)
      | (.error e, st1) => (.error e, st1)

/-! ### Pointer resolution (`json_ref_dict/ref_pointer.py`)

The mutual recursion between `resolve_uri_to_urivalue_pair`,
`RefPointer.resolve_with_uri` and `RefPointer.resolve_remote_with_uri` is
expressed by parametrizing the inner functions over the recursive entry
point `pairF` and tying the knot with a fuel argument in
`resolveUriToUriValuePairC`. -/

/-- Result type of the resolution functions: Python return value (or
exception) plus the updated caches. -/
def ResResult : Type := Except Err (URI × JSON) × CacheState

/-- Embeds `RefPointer.resolve_remote_with_uri`, generic in the recursive resolver:
when `doc` is a `$ref` node, redirect to the relative reference extended by
the re-escaped remaining parts and resolve it from scratch. -/
def resolveRemoteGen (pairF : CacheState → URI → ResResult)
    (st : CacheState) (uri : URI) (afterParts : List String) (doc : JSON) :
    Except Err (Option (URI × JSON)) × CacheState :=
  match refOf doc with
  | none => (.ok none, st)
  | some r =>
    match URI.relative uri r with
    | .error e => (.error e, st)
    | .ok ruri =>
      match pairF st (ruri.get (afterParts.map parse_segment)) with
      | (.error e, st1) => (.error e, st1)
      | (.ok p, st1) => (.ok (some p), st1)

/-- The `except JsonPointerException` handler of `resolve_with_uri`'s loop:
with a default, a navigation failure returns `(self.uri, default)`; any
other exception (or no default) propagates. -/
def catchDefault (uri : URI) (default? : Option JSON) (e : Err) :
    Except Err (URI × JSON) :=
  match e, default? with
  | .jsonPointerException _, some d => .ok (uri, d)
  | _, _ => .error e

/-- The segment loop of `RefPointer.resolve_with_uri`: skip empty parts;
walk one step (literal, then percent-decoded); after the lookup check for a
`$ref` redirect whose result is returned directly; `JsonPointerException`
raised anywhere inside the step (including inside a redirect's recursive
resolution) is converted by the default, other errors propagate. -/
def resolveLoopGen (pairF : CacheState → URI → ResResult)
    (uri : URI) (default? : Option JSON) :
    List String → JSON → CacheState → ResResult
  | [], doc, st => (.ok (uri, doc), st)
  | p :: rest, doc, st =>
    if p = "" then resolveLoopGen pairF uri default? rest doc st
    else
      match stepWalk doc p with
      | .error e => (catchDefault uri default? e, st)
      | .ok d =>
        match resolveRemoteGen pairF st uri rest d with
        | (.error e, st1) => (catchDefault uri default? e, st1)
        | (.ok (some res), st1) => (.ok res, st1)
        | (.ok none, st1) => resolveLoopGen pairF uri default? rest d st1

/-- Embeds `RefPointer.resolve_with_uri`, generic in the recursive resolver: check
the document root for a `$ref` (outside the loop's exception handler, so a
failure here ignores the default), then run the segment loop. -/
def resolveWithUriGen (pairF : CacheState → URI → ResResult)
    (st : CacheState) (uri : URI) (parts : List String) (doc : JSON)
    (default? : Option JSON) : ResResult :=
  match resolveRemoteGen pairF st uri parts doc with
  | (.error e, st1) => (.error e, st1)
  | (.ok (some res), st1) => (.ok res, st1)
  | (.ok none, st1) => resolveLoopGen pairF uri default? parts doc st1

/-- Embeds `ref_pointer.resolve_uri_to_urivalue_pair`: memoized by the exact input
URI (successes only); on a miss, load the root document, build the
`RefPointer` (parsing the pointer) and resolve, caching a successful pair.
Reference redirects recurse into this function at smaller fuel. -/
def resolveUriToUriValuePairC (fetch : Fetch) :
    Nat → CacheState → URI → ResResult
  | 0, st, _ => (.error .recursionError, st)
  | fuel + 1, st, uri =>
    match st.resolveCache.lookup uri with
    | some p => (.ok p, st)
    | none =>
      match resolveCachedRootDoc fetch st uri with
      | (.error e, st1) => (.error e, st1)
      | (.ok document, st1) =>
        match pointerParts uri.pointer with
        | .error e => (.error e, st1)
        | .ok parts =>
          match resolveWithUriGen (resolveUriToUriValuePairC fetch fuel)
              st1 uri parts document none with
          | (.error e, st2) => (.error e, st2)
          | (.ok p, st2) =>
            (.ok p, { st2 with resolveCache := (uri, p) :: st2.resolveCache })

/-- Embeds `RefPointer.resolve_with_uri` at a given recursion budget. -/
def resolveWithUriC (fetch : Fetch) (fuel : Nat) (st : CacheState)
    (uri : URI) (parts : List String) (doc : JSON) (default? : Option JSON) :
    ResResult :=
  resolveWithUriGen (resolveUriToUriValuePairC fetch fuel) st uri parts doc
    default?

/-- Embeds `ref_pointer.resolve_uri`: the value component of the pair resolver. -/
def resolveUriC (fetch : Fetch) (fuel : Nat) (st : CacheState) (uri : URI) :
    Except Err JSON × CacheState :=
  match resolveUriToUriValuePairC fetch fuel st uri with
  | (.error e, st1) => (.error e, st1)
  | (.ok p, st1) => (.ok p.2, st1)

/-! ### Lazy views (`json_ref_dict/ref_dict.py`) -/

/-- A constructed `RefDict`: its URI and the resolved mapping it copied at
construction time. -/
structure RefDictS where
  uri : URI
  data : List (String × JSON)
deriving Repr

/-- A constructed `RefList`. -/
structure RefListS where
  uri : URI
  data : List JSON
deriving Repr

/-- What `propagate`/`RefDict.from_uri` can hand back: a mapping view, a
sequence view, or a plain value. -/
inductive Node where
  | dict (d : RefDictS) : Node
  | list (l : RefListS) : Node
  | value (v : JSON) : Node
deriving Repr

/-- Embeds `RefDict.__init__`: resolve the URI eagerly; a non-mapping value raises
`TypeError` naming the address and the value found. -/
def refDictInit (fetch : Fetch) (fuel : Nat) (st : CacheState) (uri : URI) :
    Except Err RefDictS × CacheState :=
  match resolveUriC fetch fuel st uri with
  | (.error e, st1) => (.error e, st1)
  | (.ok v, st1) =>
    match v with
    | .obj kvs => (.ok ⟨uri, kvs⟩, st1)
    | _ =>
      (.error (.constructionTypeError uri.uri_base uri.uri_name uri.pointer v),
        st1)

/-- Embeds `RefList.__init__`: resolve the URI eagerly; a non-sequence value raises
`TypeError` naming the address and the value found. -/
def refListInit (fetch : Fetch) (fuel : Nat) (st : CacheState) (uri : URI) :
    Except Err RefListS × CacheState :=
  match resolveUriC fetch fuel st uri with
  | (.error e, st1) => (.error e, st1)
  | (.ok v, st1) =>
    match v with
    | .arr xs => (.ok ⟨uri, xs⟩, st1)
    | _ =>
      (.error (.constructionTypeError uri.uri_base uri.uri_name uri.pointer v),
        st1)

/-- Embeds `RefDict.from_uri`: look ahead at the resolved value and build the
matching view, or return the scalar as-is. -/
def fromUriC (fetch : Fetch) (fuel : Nat) (st : CacheState) (uri : URI) :
    Except Err Node × CacheState :=
  match resolveUriC fetch fuel st uri with
  | (.error e, st1) => (.error e, st1)
  | (.ok v, st1) =>
    match v with
    | .obj _ =>
      match refDictInit fetch fuel st1 uri with
      | (.error e, st2) => (.error e, st2)
      | (.ok d, st2) => (.ok (.dict d), st2)
    | .arr _ =>
      match refListInit fetch fuel st1 uri with
      | (.error e, st2) => (.error e, st2)
      | (.ok l, st2) => (.ok (.list l), st2)
    | w => (.ok (.value w), st1)

/-- Embeds `ref_dict.propagate`: classify a raw child value at a child address.  A
mapping with a string `$ref` is replaced by `from_uri` of the relative
target; other mappings and sequences are wrapped as views at the child
address; scalars pass through. -/
def propagateC (fetch : Fetch) (fuel : Nat) (st : CacheState) (uri : URI)
    (value : JSON) : Except Err Node × CacheState :=
  match value with
  | .obj kvs =>
    match kvs.lookup "$ref" with
    | some (.str r) =>
      match URI.relative uri r with
      | .error e => (.error e, st)
      | .ok target => fromUriC fetch fuel st target
    | _ =>
      match refDictInit fetch fuel st uri with
      | (.error e, st1) => (.error e, st1)
      | (.ok d, st1) => (.ok (.dict d), st1)
  | .arr _ =>
    match refListInit fetch fuel st uri with
    | (.error e, st1) => (.error e, st1)
    | (.ok l, st1) => (.ok (.list l), st1)
  | w => (.ok (.value w), st)

/-- Embeds `RefDict.__getitem__`: raw lookup in the already-resolved mapping
(`KeyError` when absent), then `propagate` at the escaped child address. -/
def refDictGetItem (fetch : Fetch) (fuel : Nat) (st : CacheState)
    (d : RefDictS) (key : String) : Except Err Node × CacheState :=
  match d.data.lookup key with
  | none => (.error (.keyError key), st)
  | some item => propagateC fetch fuel st (d.uri.get [parse_segment key]) item

/-- A Python index expression handed to `RefList.__getitem__`: a scalar
integer or a range-style slice. -/
inductive PyIndex where
  | int (i : Int) : PyIndex
  | slice (start stop : Option Int) : PyIndex
deriving DecidableEq, Repr

/-- Embeds `RefList.__getitem__`.  For a slice, `UserList.__getitem__` builds
`self.__class__(self.data[index])`; `RefList.__init__` then calls the
memoized `resolve_uri` on the sliced list, which is unhashable, so the call
fails with `TypeError` before any resolution work.  For a scalar integer,
the raw element (Python semantics: negative indices count from the end,
out-of-range raises `IndexError`) is propagated at address
`self.uri.get(str(index))`. -/
def refListGetItem (fetch : Fetch) (fuel : Nat) (st : CacheState)
    (l : RefListS) : PyIndex → Except Err Node × CacheState
  | .slice _ _ => (.error (.typeError "unhashable type: list"), st)
  | .int i =>
    let n : Int := l.data.length
    let j : Int := if i < 0 then i + n else i
    if h : 0 ≤ j ∧ j.toNat < l.data.length then
      propagateC fetch fuel st (l.uri.get [toString i]) (l.data.get ⟨j.toNat, h.2⟩)
    else (.error (.indexError "list index out of range"), st)

/-! ### Materialization (`json_ref_dict/materialize.py`)

Pass 1 is embedded directly.  Pass 2 mutates the pass-1 tree, assigning at
every recorded alias path the very object found at the canonical source
path; object identity between two positions of the mutated result is
therefore equality of their canonical positions, computed by rewriting
recorded alias prefixes to their source (`canonSegs` below). -/

/-- Embeds `materialize.MaterializeConf`. -/
structure MaterializeConf where
  value_map : JSON → JSON
  include_keys : Option (List String)
  exclude_keys : List String
  context_labeller : Option (String → String × JSON)

/-- Embeds `MaterializeConf.match_key`: an empty (`None`) filter set is falsy in
Python and disables that filter. -/
def MaterializeConf.matchKey (conf : MaterializeConf) (key : String) : Bool :=
  let incOk :=
    match conf.include_keys with
    | some ks => if ks.isEmpty then true else ks.contains key
    | none => true
  let excOk :=
    if conf.exclude_keys.isEmpty then true
    else !(conf.exclude_keys.contains key)
  incOk && excOk

/-- Embeds `MaterializeConf.label`: a single labelled pair built from `str(uri)`
when a labeller is configured (the `repr` can raise), else empty. -/
def MaterializeConf.labelOf (conf : MaterializeConf) (u : URI) :
    Except Err (List (String × JSON)) :=
  match conf.context_labeller with
  | some f =>
    match u.reprStr with
    | .error e => .error e
    | .ok s => .ok [f s]
  | none => .ok []

/-- Python `{**a, **b}` for string-keyed dicts as ordered association
lists: keys of `a` first (values overridden by `b` on collision), then the
keys of `b` not in `a`. -/
def dictMerge (a b : List (String × JSON)) : List (String × JSON) :=
  (a.map fun kv =>
    (kv.1, match b.lookup kv.1 with | some w => w | none => kv.2))
    ++ b.filter fun kv => (a.lookup kv.1).isNone

/-- One `_RepeatCache` entry: the canonical source path and the recorded
alias paths (a set in Python; insertion-ordered and duplicate-free here). -/
structure RepeatEntry where
  source : String
  repeats : List String
deriving DecidableEq, Repr

/-- State shared by the recursive materialization: the resolution caches,
the `repeats` tracking map, and a log of the addresses expanded in pass 1
(one entry per `repeats[item.uri] = _RepeatCache(...)` assignment). -/
structure MSt where
  cache : CacheState
  repeatsMap : List (URI × RepeatEntry)
  expLog : List URI

/-- Embeds `repeats[uri][1].add(JsonPointer(pointer))`. -/
def addAlias (m : List (URI × RepeatEntry)) (uri : URI) (ptr : String) :
    List (URI × RepeatEntry) :=
  m.map fun e =>
    if e.1 = uri then
      (e.1, ⟨e.2.source,
        if e.2.repeats.contains ptr then e.2.repeats
        else e.2.repeats ++ [ptr]⟩)
    else e

/-- The mapping comprehension of `_materialize_recursive`, generic in the
recursive call `recF` (one nesting level below). -/
def materializeItemsGen (fetch : Fetch) (rfuel : Nat) (conf : MaterializeConf)
    (recF : MSt → String → Node → Except Err JSON × MSt) :
    MSt → URI → String → List (String × JSON) →
    Except Err (List (String × JSON)) × MSt
  | st, _, _, [] => (.ok [], st)
  | st, uri, ptr, (k, raw) :: rest =>
    match propagateC fetch rfuel st.cache (uri.get [parse_segment k]) raw with
    | (.error e, c1) => (.error e, { st with cache := c1 })
    | (.ok nd, c1) =>
      let st1 : MSt := { st with cache := c1 }
      if conf.matchKey k then
        match recF st1 (posixJoin2 ptr (parse_segment k)) nd with
        | (.error e, st2) => (.error e, st2)
        | (.ok v, st2) =>
          match materializeItemsGen fetch rfuel conf recF st2 uri ptr rest with
          | (.error e, st3) => (.error e, st3)
          | (.ok kvs, st3) => (.ok ((k, v) :: kvs), st3)
      else materializeItemsGen fetch rfuel conf recF st1 uri ptr rest

/-- The list comprehension of `_materialize_recursive` (iteration goes
through `RefList.__getitem__`, i.e. `propagate`), generic in the recursive
call. -/
def materializeElemsGen (fetch : Fetch) (rfuel : Nat) (conf : MaterializeConf)
    (recF : MSt → String → Node → Except Err JSON × MSt) :
    MSt → URI → String → Nat → List JSON →
    Except Err (List JSON) × MSt
  | st, _, _, _, [] => (.ok [], st)
  | st, uri, ptr, idx, raw :: rest =>
    match propagateC fetch rfuel st.cache (uri.get [toString idx]) raw with
    | (.error e, c1) => (.error e, { st with cache := c1 })
    | (.ok nd, c1) =>
      let st1 : MSt := { st with cache := c1 }
      match recF st1 (posixJoin2 ptr (parse_segment (toString idx))) nd with
      | (.error e, st2) => (.error e, st2)
      | (.ok v, st2) =>
        match materializeElemsGen fetch rfuel conf recF st2 uri ptr (idx + 1) rest with
        | (.error e, st3) => (.error e, st3)
        | (.ok xs, st3) => (.ok (v :: xs), st3)

/-- Embeds `_materialize_recursive`, with one fuel unit consumed per nesting
level.  Non-view values get `value_map`; a view whose address was already
tracked records the current path as an alias and contributes `None`;
otherwise the address is tracked (canonical path = current path, logged in
`expLog`) and the children are assembled, mappings as
`{**conf.label(item), **{filtered children}}`. -/
def materializeRec (fetch : Fetch) (rfuel : Nat) (conf : MaterializeConf) :
    Nat → MSt → String → Node → Except Err JSON × MSt
  | 0, st, _, _ => (.error .recursionError, st)
  | _ + 1, st, _, .value v => (.ok (conf.value_map v), st)
  | mfuel + 1, st, ptr, .dict d =>
    match st.repeatsMap.lookup d.uri with
    | some _ => (.ok .null, { st with repeatsMap := addAlias st.repeatsMap d.uri ptr })
    | none =>
      let st1 : MSt :=
        { st with repeatsMap := st.repeatsMap ++ [(d.uri, ⟨ptr, []⟩)],
                  expLog := d.uri :: st.expLog }
      match conf.labelOf d.uri with
      | .error e => (.error e, st1)
      | .ok lab =>
        match materializeItemsGen fetch rfuel conf
            (materializeRec fetch rfuel conf mfuel) st1 d.uri ptr d.data with
        | (.error e, st2) => (.error e, st2)
        | (.ok kvs, st2) => (.ok (.obj (dictMerge lab kvs)), st2)
  | mfuel + 1, st, ptr, .list l =>
    match st.repeatsMap.lookup l.uri with
    | some _ => (.ok .null, { st with repeatsMap := addAlias st.repeatsMap l.uri ptr })
    | none =>
      let st1 : MSt :=
        { st with repeatsMap := st.repeatsMap ++ [(l.uri, ⟨ptr, []⟩)],
                  expLog := l.uri :: st.expLog }
      match materializeElemsGen fetch rfuel conf
          (materializeRec fetch rfuel conf mfuel) st1 l.uri ptr 0 l.data with
      | (.error e, st2) => (.error e, st2)
      | (.ok xs, st2) => (.ok (.arr xs), st2)

/-- The `MaterializeConf` that `materialize.materialize` builds from its
keyword arguments: an empty or absent `include_keys` iterable becomes
`None`, `exclude_keys` defaults to the empty set. -/
def confOf (include_keys exclude_keys : List String)
    (value_map : JSON → JSON)
    (context_labeller : Option (String → String × JSON)) : MaterializeConf :=
  { value_map := value_map
    include_keys := if include_keys.isEmpty then none else some include_keys
    exclude_keys := exclude_keys
    context_labeller := context_labeller }

/-- Embeds `materialize.materialize` (pass 1): build the configuration from the
keyword arguments and run the recursion at pointer `/` on an empty
`repeats` map, returning the built tree together with the final state
(whose `repeatsMap` drives pass 2). -/
def materializeTop (fetch : Fetch) (rfuel mfuel : Nat)
    (include_keys exclude_keys : List String) (value_map : JSON → JSON)
    (context_labeller : Option (String → String × JSON)) (st : CacheState)
    (item : Node) : Except Err JSON × MSt :=
  materializeRec fetch rfuel
    (confOf include_keys exclude_keys value_map context_labeller) mfuel
    ⟨st, [], []⟩ "/" item

/-- Pointer-string to segment list, with the pass-2 convention that the
root pointer `/` denotes the whole result (no segments). -/
def ptrSegs (p : String) : List String :=
  if p = "/" then []
  else
    match splitOnChar '/' p.data with
    | [] => []
    | _ :: rest => rest.map fun cs => unescape (String.mk cs)

/-- Strip `pre` from the front of `segs`, if it is a prefix. -/
def dropLeadSegs : List String → List String → Option (List String)
  | [], rest => some rest
  | _, [] => none
  | a :: as_, b :: bs => if a = b then dropLeadSegs as_ bs else none

/-- One alias-indirection step of the pass-2 fix-up: if the position lies
under a recorded alias path, it is the very object at the corresponding
position under that alias's canonical source path. -/
def canonStep (rm : List (URI × RepeatEntry)) (segs : List String) :
    Option (List String) :=
  match rm with
  | [] => none
  | (_, e) :: rest =>
    match e.repeats.firstM (fun al =>
        (dropLeadSegs (ptrSegs al) segs).map fun tail =>
          ptrSegs e.source ++ tail) with
    | some res => some res
    | none => canonStep rest segs

/-- Canonical position of a path in the pass-2 result: rewrite alias
prefixes to their source until none applies (bounded by fuel).  Two
positions with the same canonical position hold the same Python object
after pass 2. -/
def canonSegs (rm : List (URI × RepeatEntry)) :
    Nat → List String → List String
  | 0, segs => segs
  | n + 1, segs =>
    match canonStep rm segs with
    | some segs1 => canonSegs rm n segs1
    | none => segs

/-! ### Observation definitions used by the theorems -/

/-- Pure walk of a sequence of parts with `stepWalk` and no reference
handling, used to state where a resolution walk first meets a `$ref`
node. -/
def walkChain (doc : JSON) : List String → Except Err JSON
  | [] => .ok doc
  | p :: rest =>
    match stepWalk doc p with
    | .ok d => walkChain d rest
    | .error e => .error e

/-- Whether an `Except` is a success. -/
def exOk {α β : Type} : Except α β → Bool
  | .ok _ => true
  | .error _ => false

/-- Whether a resolution outcome is a navigation failure
(`JsonPointerException`). -/
def isNavError : Except Err (URI × JSON) → Bool
  | .error (.jsonPointerException _) => true
  | _ => false

/-- The loader-call-count invariant: the underlying loader body has run at
most once per distinct document id, and every id it ran for is cached (so
it will never run for that id again). -/
def loaderOnceInv (st : CacheState) : Prop :=
  st.fetchLog.Nodup ∧ ∀ id ∈ st.fetchLog, (st.docCache.lookup id).isSome

instance (st : CacheState) : Decidable (loaderOnceInv st) := by
  unfold loaderOnceInv; infer_instance

/-- The expansion-uniqueness invariant of materialization pass 1: every
address is expanded at most once (`expLog` duplicate-free), and expanded
addresses are exactly the tracked ones, so a tracked address is never
expanded again. -/
def expandOnceInv (st : MSt) : Prop :=
  st.expLog.Nodup ∧ (∀ u ∈ st.expLog, (st.repeatsMap.lookup u).isSome) ∧
    ∀ p ∈ st.repeatsMap, p.1 ∈ st.expLog

instance (st : MSt) : Decidable (expandOnceInv st) := by
  unfold expandOnceInv; infer_instance

/-! ### Concrete fixtures used by witnesses and counterexamples -/

/-- Document `a` of the root-redirect scenario: the document root is itself
a `$ref` to document `b`. -/
def docRootRef : JSON := .obj [("$ref", .str "b#/")]

/-- Document `b` of the root-redirect scenario. -/
def docK : JSON := .obj [("k", .num 1)]

/-- Two-document store for the root-redirect scenario. -/
def fetchAB : Fetch := fun s =>
  if s = "a" then .ok docRootRef else if s = "b" then .ok docK else .error "no such document"

/-- Store that returns `docK` for every document id. -/
def fetchConst : Fetch := fun _ => .ok docK

/-- Document `d`: member `r` is a `$ref` to a missing member. -/
def docMidRef : JSON := .obj [("r", .obj [("$ref", .str "#/zzz")])]

/-- Single-document store for the mid-walk redirect scenario. -/
def fetchD : Fetch := fun s =>
  if s = "d" then .ok docMidRef else .error "no such document"

/-- The cyclic document of C2:
`A: {definitions: {foo: {$ref: "#/"}}}`. -/
def docCyclic : JSON :=
  .obj [("definitions", .obj [("foo", .obj [("$ref", .str "#/")])])]

/-- Store holding only the cyclic document, under id `a`. -/
def fetchCyclic : Fetch := fun s =>
  if s = "a" then .ok docCyclic else .error "no such document"

/-- Address of the cyclic document root. -/
def uriCyclic : URI := ⟨none, "a", "/"⟩

/-- The view of the cyclic document obtained through `RefDict.from_uri`,
together with the cache state after constructing it. -/
def cyclicView : Except Err Node × CacheState :=
  fromUriC fetchCyclic 5 CacheState.init uriCyclic

/-- Runs `materialize` (pass 1) on the cyclic document with default options. -/
def materializeCyclic : Except Err JSON × MSt :=
  match cyclicView with
  | (.ok nd, st) => materializeTop fetchCyclic 5 6 [] [] id none st nd
  | (.error e, _) => (.error e, ⟨CacheState.init, [], []⟩)

/-- Document with a key containing a raw space, for the percent-decoding
fallback. -/
def docSpaces : JSON := .obj [("with spaces", .obj [("foo", .str "bar")])]

/-- **C4.** For every address `a` and reference string `r`: if the relative
resolution of `r` against `a` (absolute parse, or local/remote resolution
against `a`) yields `a` itself, then `URI.relative` fails with
`ReferenceParseError`; whenever it yields any address different from `a`,
`URI.relative` returns that address without error. -/
theorem relative_guards_self_reference (a : URI) (r : String) :
    (URI.relativeRaw a r = .ok a →
      URI.relative a r = .error (.referenceParseError selfRefMsg)) ∧
    (∀ u : URI, URI.relativeRaw a r = .ok u → u ≠ a →
      URI.relative a r = .ok u) := by
  constructor
  · intro h
    simp [URI.relative, h]
  · intro u h hne
    simp [URI.relative, h, hne]

/-- Witness for C4 at concrete inputs: resolving `#/x` from `a#/x` is
rejected as self-referential, while resolving it from `a#/y` succeeds. -/
theorem relative_guards_self_reference_witness :
    URI.relative ⟨none, "a", "/x"⟩ "#/x"
        = .error (.referenceParseError selfRefMsg) ∧
    URI.relative ⟨none, "a", "/y"⟩ "#/x" = .ok ⟨none, "a", "/x"⟩ :=
  ⟨(relative_guards_self_reference ⟨none, "a", "/x"⟩ "#/x").1 (by rfl),
   (relative_guards_self_reference ⟨none, "a", "/y"⟩ "#/x").2
      ⟨none, "a", "/x"⟩ (by rfl) (by decide)⟩

/-- **C6.** For every node and path segment, segment lookup first attempts
the literal segment string: when the literal lookup succeeds its result is
used and the percent-decoded form is never consulted; only when the literal
lookup fails with a navigation error is a second lookup attempted with the
percent-decoded segment, whose outcome is then used. -/
theorem segment_lookup_literal_first (doc : JSON) (part : String) :
    (∀ v, walkRaw doc part = .ok v → stepWalk doc part = .ok v) ∧
    (∀ m, walkRaw doc part = .error (.jsonPointerException m) →
      stepWalk doc part = walkRaw doc (unquote part)) := by
  constructor
  · intro v h
    simp [stepWalk, h]
  · intro m h
    simp [stepWalk, h]

/-- Witness for C6: the literal key with a raw space is found directly;
the percent-encoded form fails literally and succeeds through decoding. -/
theorem segment_lookup_literal_first_witness :
    stepWalk docSpaces "with spaces" = .ok (.obj [("foo", .str "bar")]) ∧
    stepWalk docSpaces "with%20spaces"
      = walkRaw docSpaces (unquote "with%20spaces") :=
  ⟨(segment_lookup_literal_first docSpaces "with spaces").1 _ (by rfl),
   (segment_lookup_literal_first docSpaces "with%20spaces").2
      "member with%20spaces not found" (by rfl)⟩

/-- **C8.** For every sequence view, indexing with a range-style slice
fails with a `TypeError` (leaving the caches untouched), while a scalar
in-range integer index is accepted and propagates the raw element at the
indexed child address. -/
theorem sequence_view_rejects_slice_indexing (fetch : Fetch) (fuel : Nat)
    (st : CacheState) (l : RefListS) :
    (∀ a b, refListGetItem fetch fuel st l (.slice a b)
        = (.error (.typeError "unhashable type: list"), st)) ∧
    (∀ (i : Int) (h0 : 0 ≤ i) (h1 : i.toNat < l.data.length),
      refListGetItem fetch fuel st l (.int i)
        = propagateC fetch fuel st (l.uri.get [toString i])
            (l.data.get ⟨i.toNat, h1⟩)) := by
  constructor
  · intro a b
    rfl
  · intro i h0 h1
    have hneg : ¬ i < 0 := not_lt.mpr h0
    simp only [refListGetItem, hneg, if_false]
    rw [dif_pos ⟨h0, h1⟩]

/-- Witness for C8 on a concrete one-element sequence view. -/
theorem sequence_view_rejects_slice_indexing_witness :
    refListGetItem fetchConst 3 CacheState.init ⟨uriCyclic, [.num 7]⟩
        (.slice none none)
      = (.error (.typeError "unhashable type: list"), CacheState.init) ∧
    refListGetItem fetchConst 3 CacheState.init ⟨uriCyclic, [.num 7]⟩ (.int 0)
      = propagateC fetchConst 3 CacheState.init
          (URI.get uriCyclic [toString (0 : Int)]) (.num 7) :=
  ⟨(sequence_view_rejects_slice_indexing fetchConst 3 CacheState.init
      ⟨uriCyclic, [.num 7]⟩).1 none none,
   (sequence_view_rejects_slice_indexing fetchConst 3 CacheState.init
      ⟨uriCyclic, [.num 7]⟩).2 0 (by decide) (by decide)⟩

/-- **C9.** For every address whose resolution yields a value: constructing
a mapping view succeeds exactly when the value is a mapping and otherwise
fails with the construction `TypeError` carrying the address and the value
found (whose kind the Python message names); dually for sequence views. -/
theorem view_construction_checks_kind (fetch : Fetch) (fuel : Nat)
    (st : CacheState) (uri : URI) (v : JSON) (st1 : CacheState)
    (h : resolveUriC fetch fuel st uri = (.ok v, st1)) :
    (∀ kvs, v = .obj kvs →
      refDictInit fetch fuel st uri = (.ok ⟨uri, kvs⟩, st1)) ∧
    ((∀ kvs, v ≠ .obj kvs) →
      refDictInit fetch fuel st uri
        = (.error (.constructionTypeError uri.uri_base uri.uri_name
              uri.pointer v), st1)) ∧
    (∀ xs, v = .arr xs →
      refListInit fetch fuel st uri = (.ok ⟨uri, xs⟩, st1)) ∧
    ((∀ xs, v ≠ .arr xs) →
      refListInit fetch fuel st uri
        = (.error (.constructionTypeError uri.uri_base uri.uri_name
              uri.pointer v), st1)) := by
  refine ⟨?_, ?_, ?_, ?_⟩
  · rintro kvs rfl
    unfold refDictInit
    rw [h]
  · intro hne
    unfold refDictInit
    rw [h]
    cases v
    case obj kvs => exact absurd rfl (hne kvs)
    all_goals rfl
  · rintro xs rfl
    unfold refListInit
    rw [h]
  · intro hne
    unfold refListInit
    rw [h]
    cases v
    case arr xs => exact absurd rfl (hne xs)
    all_goals rfl

/-- Witness for C9: at the same address (resolving to a mapping), mapping
view construction succeeds and sequence view construction fails with the
construction `TypeError` carrying the mapping found. -/
theorem view_construction_checks_kind_witness :
    refDictInit fetchConst 2 CacheState.init uriCyclic
      = (.ok ⟨uriCyclic, [("k", .num 1)]⟩,
          (resolveUriC fetchConst 2 CacheState.init uriCyclic).2) ∧
    refListInit fetchConst 2 CacheState.init uriCyclic
      = (.error (.constructionTypeError none "a" "/" docK),
          (resolveUriC fetchConst 2 CacheState.init uriCyclic).2) :=
  ⟨(view_construction_checks_kind fetchConst 2 CacheState.init uriCyclic docK
      (resolveUriC fetchConst 2 CacheState.init uriCyclic).2 (by rfl)).1
      [("k", .num 1)] (by rfl),
   (view_construction_checks_kind fetchConst 2 CacheState.init uriCyclic docK
      (resolveUriC fetchConst 2 CacheState.init uriCyclic).2 (by rfl)).2.2.2
      (by intro xs hx; simp [docK] at hx)⟩

/-- Helper: the segment loop with a default behaves like the loop without
one, except that a navigation failure is converted by `catchDefault`. -/
theorem resolveLoopGen_default (pairF : CacheState → URI → ResResult)
    (uri : URI) (d : JSON) :
    ∀ (parts : List String) (doc : JSON) (st : CacheState),
    resolveLoopGen pairF uri (some d) parts doc st =
      (match resolveLoopGen pairF uri none parts doc st with
       | (.error e, st1) => (catchDefault uri (some d) e, st1)
       | r => r) := by
  intro parts
  induction parts with
  | nil =>
    intro doc st
    rfl
  | cons p rest ih =>
    intro doc st
    by_cases hp : p = ""
    · subst hp
      simp only [resolveLoopGen, if_pos rfl]
      exact ih doc st
    · simp only [resolveLoopGen, if_neg hp]
      cases hw : stepWalk doc p with
      | error e => cases e <;> rfl
      | ok dn =>
        dsimp only
        rcases hr : resolveRemoteGen pairF st uri rest dn with ⟨res, st1⟩
        cases res with
        | error e => cases e <;> rfl
        | ok o =>
          cases o with
          | none => exact ih dn st1
          | some r => rfl

/-- Helper: `resolve_remote_with_uri` reports "not a reference" exactly for
non-reference nodes, leaving the state untouched. -/
theorem resolveRemoteGen_ok_none (pairF : CacheState → URI → ResResult)
    (st : CacheState) (uri : URI) (aft : List String) (doc : JSON)
    (st1 : CacheState)
    (h : resolveRemoteGen pairF st uri aft doc = (.ok none, st1)) :
    refOf doc = none ∧ st1 = st := by
  unfold resolveRemoteGen at h
  cases href : refOf doc with
  | none =>
    rw [href] at h
    refine ⟨rfl, ?_⟩
    injection h with h1 h2
    exact h2.symm
  | some r =>
    rw [href] at h
    dsimp only at h
    cases hrel : URI.relative uri r with
    | error e =>
      rw [hrel] at h
      simp at h
    | ok ruri =>
      rw [hrel] at h
      dsimp only at h
      rcases hp : pairF st (ruri.get (aft.map parse_segment)) with ⟨res, st2⟩
      rw [hp] at h
      cases res <;> simp at h

/-- **C5 (amended).** For every address and starting document whose root is
not itself a `$ref` node, resolving with a supplied default behaves exactly
like resolving without one, except that a navigation failure
(`JsonPointerException`, whether a segment was not found or a wrong
container kind was hit, including such failures propagating out of a
mid-walk redirect) returns `(input address, default)` instead; every other
failure — in particular a document-load `DocumentParseError` — propagates
regardless of the default.  When the root is a `$ref` node the default is
ignored entirely, so a navigation failure of the root-level redirect
propagates even with a default (the correction to the original claim). -/
theorem resolve_default_converts_navigation_failures (fetch : Fetch)
    (fuel : Nat) (st : CacheState) (uri : URI) (parts : List String)
    (doc : JSON) (d : JSON) :
    resolveWithUriC fetch fuel st uri parts doc (some d) =
      (match refOf doc, resolveWithUriC fetch fuel st uri parts doc none with
       | none, (.error (.jsonPointerException _), st1) => (.ok (uri, d), st1)
       | _, r => r) := by
  unfold resolveWithUriC resolveWithUriGen
  rcases hrem : resolveRemoteGen (resolveUriToUriValuePairC fetch fuel) st uri
      parts doc with ⟨res, st1⟩
  cases res with
  | error e =>
    have : refOf doc ≠ none := by
      intro hn
      unfold resolveRemoteGen at hrem
      rw [hn] at hrem
      cases hrem
    cases href : refOf doc with
    | none => exact absurd href this
    | some r => cases e <;> rfl
  | ok o =>
    cases o with
    | some r =>
      have : refOf doc ≠ none := by
        intro hn
        unfold resolveRemoteGen at hrem
        rw [hn] at hrem
        cases hrem
      cases href : refOf doc with
      | none => exact absurd href this
      | some rr => rfl
    | none =>
      obtain ⟨href, hst⟩ := resolveRemoteGen_ok_none _ _ _ _ _ _ hrem
      subst hst
      rw [href]
      dsimp only
      rw [resolveLoopGen_default]
      rcases hl : resolveLoopGen (resolveUriToUriValuePairC fetch fuel) uri
          none parts doc st1 with ⟨lres, st2⟩
      cases lres with
      | error e => cases e <;> rfl
      | ok r => rfl

/-- Counterexample for C5 as stated: for address `a#/x` over the documents
`a: {$ref: "b#/"}` and `b: {k: 1}`, the walk of the redirect target `b#/x`
fails to find segment `x` (a navigation failure during path walking), yet
`resolve` with the default `42` raises the `JsonPointerException` instead
of returning `(a#/x, 42)`, because the root-level redirect sits outside the
loop's exception handler. -/
theorem resolve_default_root_redirect_counterexample :
    (resolveWithUriC fetchAB 5 CacheState.init ⟨none, "a", "/x"⟩ ["x"]
        docRootRef (some (.num 42))).1
      = .error (.jsonPointerException "member x not found") := by
  rfl

/-- Helper: if the walk of the loop's segments passes only non-reference
nodes until, after consuming `p`, it first reaches a `$ref` node, then the
loop redirects: it resolves the relative reference extended by the
remaining re-escaped segments and returns that result directly. -/
theorem resolveLoopGen_first_ref (pairF : CacheState → URI → ResResult)
    (uri : URI) :
    ∀ (pre : List String) (p : String) (rest : List String) (doc n : JSON)
      (r : String) (st : CacheState),
    (∀ l1 l2, pre = l1 ++ l2 → ∀ m, walkChain doc l1 = .ok m → refOf m = none) →
    "" ∉ pre → p ≠ "" →
    walkChain doc (pre ++ [p]) = .ok n → refOf n = some r →
    resolveLoopGen pairF uri none (pre ++ p :: rest) doc st =
      (match URI.relative uri r with
       | .error e => (.error e, st)
       | .ok ruri => pairF st (ruri.get (rest.map parse_segment))) := by
  intro pre
  induction pre with
  | nil =>
    intro p rest doc n r st hpre hne hp hw href
    rw [List.nil_append] at hw
    have hs : stepWalk doc p = .ok n := by
      cases hsw : stepWalk doc p with
      | error e => simp [walkChain, hsw] at hw
      | ok dd => simpa [walkChain, hsw] using hw
    rw [List.nil_append]
    simp only [resolveLoopGen, if_neg hp, hs]
    unfold resolveRemoteGen
    rw [href]
    dsimp only
    cases hrel : URI.relative uri r with
    | error e => cases e <;> rfl
    | ok ruri =>
      dsimp only
      rcases hq : pairF st (ruri.get (rest.map parse_segment)) with ⟨res, st1⟩
      cases res with
      | error e => cases e <;> rfl
      | ok q => rfl
  | cons q pre' ih =>
    intro p rest doc n r st hpre hne hp hw href
    have hq : q ≠ "" := fun h => hne (h ▸ List.mem_cons_self q pre')
    rw [List.cons_append] at hw
    cases hsw : stepWalk doc q with
    | error e => simp [walkChain, hsw] at hw
    | ok d1 =>
      have hw1 : walkChain d1 (pre' ++ [p]) = .ok n := by
        simpa [walkChain, hsw] using hw
      have hd1 : refOf d1 = none :=
        hpre [q] pre' rfl d1 (by simp [walkChain, hsw])
      have hrem : resolveRemoteGen pairF st uri (pre' ++ p :: rest) d1
          = (.ok none, st) := by
        unfold resolveRemoteGen
        rw [hd1]
      rw [List.cons_append]
      simp only [resolveLoopGen, if_neg hq, hsw]
      rw [hrem]
      exact ih p rest d1 n r st
        (fun l1 l2 hsplit m hm =>
          hpre (q :: l1) l2 (by rw [hsplit, List.cons_append]) m
            (by simpa [walkChain, hsw] using hm))
        (fun h => hne (List.mem_cons_of_mem q h)) hp hw1 href

/-- **C1.** For every address whose path walk encounters a mapping node
with a string `$ref` — at any step, including the document root before any
segment is consumed — resolution redirects: the referenced address is
`current_address.relative(ref)` extended (`URI.get`) by the remaining
unconsumed segments re-escaped, and resolution recurses into that address
from scratch (`resolveUriToUriValuePairC`), returning its result directly
without walking the original document further. -/
theorem resolution_redirects_at_refs (fetch : Fetch) (fuel : Nat)
    (st : CacheState) (uri : URI) (doc : JSON) :
    (∀ parts default? r, refOf doc = some r →
      resolveWithUriC fetch fuel st uri parts doc default? =
        (match URI.relative uri r with
         | .error e => (.error e, st)
         | .ok ruri =>
            resolveUriToUriValuePairC fetch fuel st
              (ruri.get (parts.map parse_segment)))) ∧
    (∀ pre p rest n r,
      (∀ l1 l2, pre = l1 ++ l2 → ∀ m, walkChain doc l1 = .ok m → refOf m = none) →
      "" ∉ pre → p ≠ "" →
      walkChain doc (pre ++ [p]) = .ok n → refOf n = some r →
      resolveWithUriC fetch fuel st uri (pre ++ p :: rest) doc none =
        (match URI.relative uri r with
         | .error e => (.error e, st)
         | .ok ruri =>
            resolveUriToUriValuePairC fetch fuel st
              (ruri.get (rest.map parse_segment)))) := by
  constructor
  · intro parts default? r href
    unfold resolveWithUriC resolveWithUriGen resolveRemoteGen
    rw [href]
    dsimp only
    cases hrel : URI.relative uri r with
    | error e => cases e <;> rfl
    | ok ruri =>
      dsimp only
      rcases hq : resolveUriToUriValuePairC fetch fuel st
          (ruri.get (parts.map parse_segment)) with ⟨res, st1⟩
      cases res with
      | error e => cases e <;> rfl
      | ok q => rfl
  · intro pre p rest n r hpre hne hp hw href
    have hd : refOf doc = none := hpre [] pre rfl doc rfl
    unfold resolveWithUriC resolveWithUriGen
    have hrem : resolveRemoteGen (resolveUriToUriValuePairC fetch fuel) st uri
        (pre ++ p :: rest) doc = (.ok none, st) := by
      unfold resolveRemoteGen
      rw [hd]
    rw [hrem]
    exact resolveLoopGen_first_ref _ uri pre p rest doc n r st hpre hne hp hw href

/-- Witness for C1: a root-level `$ref` (document `a: {$ref: "b#/"}` at
address `a#/x`) and a first-segment `$ref` (document
`d: {r: {$ref: "#/zzz"}}` at address `d#/r`) both redirect as described. -/
theorem resolution_redirects_at_refs_witness :
    resolveWithUriC fetchAB 4 CacheState.init ⟨none, "a", "/x"⟩ ["x"]
        docRootRef none
      = (match URI.relative ⟨none, "a", "/x"⟩ "b#/" with
         | .error e => (.error e, CacheState.init)
         | .ok ruri =>
            resolveUriToUriValuePairC fetchAB 4 CacheState.init
              (ruri.get (["x"].map parse_segment))) ∧
    resolveWithUriC fetchD 4 CacheState.init ⟨none, "d", "/r"⟩ ["r"]
        docMidRef none
      = (match URI.relative ⟨none, "d", "/r"⟩ "#/zzz" with
         | .error e => (.error e, CacheState.init)
         | .ok ruri =>
            resolveUriToUriValuePairC fetchD 4 CacheState.init
              (ruri.get (([] : List String).map parse_segment))) :=
  ⟨(resolution_redirects_at_refs fetchAB 4 CacheState.init ⟨none, "a", "/x"⟩
      docRootRef).1 ["x"] none "b#/" (by rfl),
   (resolution_redirects_at_refs fetchD 4 CacheState.init ⟨none, "d", "/r"⟩
      docMidRef).2 [] "r" [] (.obj [("$ref", .str "#/zzz")]) "#/zzz"
      (by
        intro l1 l2 hsplit m hm
        have h1 : l1 = [] := (List.append_eq_nil.mp hsplit.symm).1
        subst h1
        simp only [walkChain] at hm
        injection hm with hm1
        rw [← hm1]
        rfl)
      (by simp) (by decide) (by rfl) (by rfl)⟩

/-- Helper: consing onto an association list preserves found-ness. -/
theorem lookup_isSome_cons {α β : Type} [BEq α] (a : α) (b : β)
    (l : List (α × β)) (k : α) (h : (l.lookup k).isSome = true) :
    (((a, b) :: l).lookup k).isSome = true := by
  simp only [List.lookup]
  cases k == a with
  | true => rfl
  | false => exact h

/-- Helper: a successful `resolve_uri_to_urivalue_pair` leaves its own
result in the resolver cache under the exact input address. -/
theorem pairC_caches_success (fetch : Fetch) (fuel : Nat) (st : CacheState)
    (uri : URI) (p : URI × JSON) (st1 : CacheState)
    (h : resolveUriToUriValuePairC fetch fuel st uri = (.ok p, st1)) :
    st1.resolveCache.lookup uri = some p := by
  cases fuel with
  | zero =>
    unfold resolveUriToUriValuePairC at h
    injection h with h1 h2
    exact Except.noConfusion h1
  | succ fuel =>
    unfold resolveUriToUriValuePairC at h
    split at h
    · -- cache hit: the entry was already present
      injection h with h1 h2
      injection h1 with h1
      subst h1
      subst h2
      assumption
    · -- miss: follow the computation to the final cache write
      split at h
      · injection h with h1 h2
        exact Except.noConfusion h1
      · split at h
        · injection h with h1 h2
          exact Except.noConfusion h1
        · split at h
          · injection h with h1 h2
            exact Except.noConfusion h1
          · injection h with h1 h2
            injection h1 with h1
            subst h1
            subst h2
            simp [List.lookup]

/-- Helper: with any positive recursion budget, a resolver-cache hit
returns the cached pair and leaves the state unchanged. -/
theorem pairC_cached_hit (fetch : Fetch) (fuel : Nat) (st : CacheState)
    (uri : URI) (p : URI × JSON)
    (hl : st.resolveCache.lookup uri = some p) (hf : 0 < fuel) :
    resolveUriToUriValuePairC fetch fuel st uri = (.ok p, st) := by
  cases fuel with
  | zero => exact absurd hf (by decide)
  | succ fuel =>
    unfold resolveUriToUriValuePairC
    rw [hl]

/-- Helper: when every fetch succeeds, `default_get_document` preserves the
at-most-one-loader-call-per-document invariant. -/
theorem defaultGetDocument_loaderInv (fetch : Fetch)
    (hfetch : ∀ s, exOk (fetch s) = true) (st : CacheState) (id : String)
    (h : loaderOnceInv st) :
    loaderOnceInv (defaultGetDocument fetch st id).2 := by
  unfold defaultGetDocument
  split
  · exact h
  · rename_i hc
    split
    · rename_i d hf
      dsimp only
      obtain ⟨hnd, hcov⟩ := h
      constructor
      · refine List.nodup_cons.mpr ⟨?_, hnd⟩
        intro hmem
        have h2 := hcov id hmem
        rw [hc] at h2
        simp at h2
      · intro id' hmem
        rcases List.mem_cons.mp hmem with h1 | h1
        · subst h1
          simp [List.lookup]
        · exact lookup_isSome_cons _ _ _ _ (hcov id' h1)
    · rename_i e hf
      have h2 := hfetch id
      rw [hf] at h2
      simp [exOk] at h2

/-- Helper: `_resolve_cached_root_doc` preserves the loader invariant. -/
theorem resolveCachedRootDoc_loaderInv (fetch : Fetch)
    (hfetch : ∀ s, exOk (fetch s) = true) (st : CacheState) (uri : URI)
    (h : loaderOnceInv st) :
    loaderOnceInv (resolveCachedRootDoc fetch st uri).2 := by
  unfold resolveCachedRootDoc
  split
  · exact h
  · split
    · exact h
    · rename_i root hroot
      split
      · rename_i d st1 heq
        have h2 := defaultGetDocument_loaderInv fetch hfetch st root h
        rw [heq] at h2
        exact h2
      · rename_i st1 heq
        have h2 := defaultGetDocument_loaderInv fetch hfetch st root h
        rw [heq] at h2
        exact h2
      · rename_i e st1 hne heq
        have h2 := defaultGetDocument_loaderInv fetch hfetch st root h
        rw [heq] at h2
        exact h2

/-- Helper: `resolve_remote_with_uri` preserves any state predicate its
recursive resolver preserves. -/
theorem resolveRemoteGen_pres {P : CacheState → Prop}
    (pairF : CacheState → URI → ResResult)
    (hp : ∀ st u, P st → P (pairF st u).2) (st : CacheState) (uri : URI)
    (aft : List String) (doc : JSON) (h : P st) :
    P (resolveRemoteGen pairF st uri aft doc).2 := by
  unfold resolveRemoteGen
  split
  · exact h
  · split
    · exact h
    · rename_i r ruri hrel
      split
      · rename_i e st1 heq
        have h2 := hp st (ruri.get (aft.map parse_segment)) h
        rw [heq] at h2
        exact h2
      · rename_i p st1 heq
        have h2 := hp st (ruri.get (aft.map parse_segment)) h
        rw [heq] at h2
        exact h2

/-- Helper: the segment loop preserves any state predicate its recursive
resolver preserves. -/
theorem resolveLoopGen_pres {P : CacheState → Prop}
    (pairF : CacheState → URI → ResResult)
    (hp : ∀ st u, P st → P (pairF st u).2) (uri : URI)
    (default? : Option JSON) :
    ∀ (parts : List String) (doc : JSON) (st : CacheState), P st →
      P (resolveLoopGen pairF uri default? parts doc st).2 := by
  intro parts
  induction parts with
  | nil => intro doc st h; exact h
  | cons p rest ih =>
    intro doc st h
    unfold resolveLoopGen
    split
    · exact ih doc st h
    · split
      · exact h
      · rename_i dn hw
        split
        · rename_i e st1 heq
          have h2 := resolveRemoteGen_pres pairF hp st uri rest dn h
          rw [heq] at h2
          exact h2
        · rename_i res st1 heq
          have h2 := resolveRemoteGen_pres pairF hp st uri rest dn h
          rw [heq] at h2
          exact h2
        · rename_i st1 heq
          have h2 := resolveRemoteGen_pres pairF hp st uri rest dn h
          rw [heq] at h2
          exact ih dn st1 h2

/-- Helper: `resolve_with_uri` preserves any state predicate its recursive
resolver preserves. -/
theorem resolveWithUriGen_pres {P : CacheState → Prop}
    (pairF : CacheState → URI → ResResult)
    (hp : ∀ st u, P st → P (pairF st u).2) (st : CacheState) (uri : URI)
    (parts : List String) (doc : JSON) (default? : Option JSON) (h : P st) :
    P (resolveWithUriGen pairF st uri parts doc default?).2 := by
  unfold resolveWithUriGen
  split
  · rename_i e st1 heq
    have h2 := resolveRemoteGen_pres pairF hp st uri parts doc h
    rw [heq] at h2
    exact h2
  · rename_i res st1 heq
    have h2 := resolveRemoteGen_pres pairF hp st uri parts doc h
    rw [heq] at h2
    exact h2
  · rename_i st1 heq
    have h2 := resolveRemoteGen_pres pairF hp st uri parts doc h
    rw [heq] at h2
    exact resolveLoopGen_pres pairF hp uri default? parts doc st1 h2

/-- Helper: when every fetch succeeds, the full resolver preserves the
loader invariant at every recursion budget. -/
theorem pairC_loaderInv (fetch : Fetch)
    (hfetch : ∀ s, exOk (fetch s) = true) :
    ∀ (fuel : Nat) (st : CacheState) (uri : URI), loaderOnceInv st →
      loaderOnceInv (resolveUriToUriValuePairC fetch fuel st uri).2 := by
  intro fuel
  induction fuel with
  | zero => intro st uri h; exact h
  | succ fuel ih =>
    intro st uri h
    unfold resolveUriToUriValuePairC
    split
    · exact h
    · split
      · rename_i e st1 heq
        have h2 := resolveCachedRootDoc_loaderInv fetch hfetch st uri h
        rw [heq] at h2
        exact h2
      · rename_i document st1 heq
        have h2 := resolveCachedRootDoc_loaderInv fetch hfetch st uri h
        rw [heq] at h2
        split
        · exact h2
        · rename_i parts hparts
          split
          · rename_i e st2 heq2
            have h3 := resolveWithUriGen_pres _ (fun s u => ih s u) st1 uri
              parts document none h2
            rw [heq2] at h3
            exact h3
          · rename_i p st2 heq2
            have h3 := resolveWithUriGen_pres _ (fun s u => ih s u) st1 uri
              parts document none h2
            rw [heq2] at h3
            exact h3

/-- **C3.** Resolving the same address twice returns the same
`(resolved_address, value)` pair (the second resolution is a pure cache
hit, leaving the state untouched), and — as long as every underlying fetch
succeeds — the loader body runs at most once per distinct document id
across any number of resolutions, because the document load and the
address-to-value resolution are both memoized by exact key. -/
theorem resolution_is_memoized (fetch : Fetch) (fuel : Nat)
    (st : CacheState) (uri : URI) :
    (∀ (p : URI × JSON) (st1 : CacheState) (fuel' : Nat),
      resolveUriToUriValuePairC fetch fuel st uri = (.ok p, st1) → 0 < fuel' →
      resolveUriToUriValuePairC fetch fuel' st1 uri = (.ok p, st1)) ∧
    ((∀ s, exOk (fetch s) = true) → loaderOnceInv st →
      loaderOnceInv (resolveUriToUriValuePairC fetch fuel st uri).2) := by
  constructor
  · intro p st1 fuel' h hf
    exact pairC_cached_hit fetch fuel' st1 uri p
      (pairC_caches_success fetch fuel st uri p st1 h) hf
  · intro hfetch h
    exact pairC_loaderInv fetch hfetch fuel st uri h

/-- Witness for C3: over a store answering every id with `docK`, resolving
`x#/` once from the empty state and then again (with minimal budget) from
the resulting state returns the identical pair and state, and the loader
invariant holds after resolution. -/
theorem resolution_is_memoized_witness :
    resolveUriToUriValuePairC fetchConst 1
        (resolveUriToUriValuePairC fetchConst 2 CacheState.init
          ⟨none, "x", "/"⟩).2 ⟨none, "x", "/"⟩
      = (.ok (⟨none, "x", "/"⟩, docK),
          (resolveUriToUriValuePairC fetchConst 2 CacheState.init
            ⟨none, "x", "/"⟩).2) ∧
    loaderOnceInv (resolveUriToUriValuePairC fetchConst 2 CacheState.init
        ⟨none, "x", "/"⟩).2 :=
  ⟨(resolution_is_memoized fetchConst 2 CacheState.init ⟨none, "x", "/"⟩).1
      (⟨none, "x", "/"⟩, docK)
      (resolveUriToUriValuePairC fetchConst 2 CacheState.init
        ⟨none, "x", "/"⟩).2 1 (by rfl) (by decide),
   (resolution_is_memoized fetchConst 2 CacheState.init ⟨none, "x", "/"⟩).2
      (fun s => rfl) (by decide)⟩

/-- Helper: `addAlias` never changes which addresses are tracked. -/
theorem addAlias_lookup_isSome (uri : URI) (ptr : String) :
    ∀ (m : List (URI × RepeatEntry)) (u : URI),
      ((addAlias m uri ptr).lookup u).isSome = (m.lookup u).isSome := by
  intro m
  induction m with
  | nil => intro u; rfl
  | cons e m ih =>
    intro u
    rcases e with ⟨a, ent⟩
    simp only [addAlias, List.map_cons]
    by_cases ha : a = uri
    · rw [if_pos ha]
      simp only [List.lookup]
      cases u == a with
      | true => rfl
      | false => exact ih u
    · rw [if_neg ha]
      simp only [List.lookup]
      cases u == a with
      | true => rfl
      | false => exact ih u

/-- Helper: `addAlias` keeps each entry's key. -/
theorem addAlias_fst_mem (m : List (URI × RepeatEntry)) (uri : URI)
    (ptr : String) (p : URI × RepeatEntry) (hp : p ∈ addAlias m uri ptr) :
    ∃ q ∈ m, p.1 = q.1 := by
  obtain ⟨q, hq, hfq⟩ := List.mem_map.mp hp
  refine ⟨q, hq, ?_⟩
  by_cases hk : q.1 = uri
  · rw [← hfq]
    simp [hk]
  · rw [← hfq]
    simp [hk]

/-- Helper: found-ness in an appended association list. -/
theorem lookup_append_isSome {α β : Type} [BEq α] (l l' : List (α × β))
    (k : α) :
    ((l ++ l').lookup k).isSome
      = ((l.lookup k).isSome || (l'.lookup k).isSome) := by
  induction l with
  | nil => rfl
  | cons e l ih =>
    rcases e with ⟨a, b⟩
    simp only [List.cons_append, List.lookup]
    cases k == a with
    | true => rfl
    | false => exact ih

/-- Helper: the mapping comprehension preserves any materialization-state
predicate that is insensitive to the resolution caches and preserved by the
recursive call. -/
theorem materializeItemsGen_expPres (fetch : Fetch) (rfuel : Nat)
    (conf : MaterializeConf)
    (recF : MSt → String → Node → Except Err JSON × MSt)
    (hrec : ∀ st ptr nd, expandOnceInv st → expandOnceInv (recF st ptr nd).2) :
    ∀ (lst : List (String × JSON)) (st : MSt) (uri : URI) (ptr : String),
      expandOnceInv st →
      expandOnceInv
        (materializeItemsGen fetch rfuel conf recF st uri ptr lst).2 := by
  intro lst
  induction lst with
  | nil => intro st uri ptr h; exact h
  | cons kv rest ih =>
    rcases kv with ⟨k, raw⟩
    intro st uri ptr h
    unfold materializeItemsGen
    split
    · exact h
    · rename_i nd c1 heq
      dsimp only
      split
      · split
        · rename_i e st2 heq2
          have h2 := hrec { st with cache := c1 } (posixJoin2 ptr (parse_segment k)) nd h
          rw [heq2] at h2
          exact h2
        · rename_i v st2 heq2
          have h2 := hrec { st with cache := c1 } (posixJoin2 ptr (parse_segment k)) nd h
          rw [heq2] at h2
          split
          · rename_i e st3 heq3
            have h3 := ih st2 uri ptr h2
            rw [heq3] at h3
            exact h3
          · rename_i kvs st3 heq3
            have h3 := ih st2 uri ptr h2
            rw [heq3] at h3
            exact h3
      · exact ih { st with cache := c1 } uri ptr h

/-- Helper: the sequence comprehension likewise. -/
theorem materializeElemsGen_expPres (fetch : Fetch) (rfuel : Nat)
    (conf : MaterializeConf)
    (recF : MSt → String → Node → Except Err JSON × MSt)
    (hrec : ∀ st ptr nd, expandOnceInv st → expandOnceInv (recF st ptr nd).2) :
    ∀ (lst : List JSON) (st : MSt) (uri : URI) (ptr : String) (idx : Nat),
      expandOnceInv st →
      expandOnceInv
        (materializeElemsGen fetch rfuel conf recF st uri ptr idx lst).2 := by
  intro lst
  induction lst with
  | nil => intro st uri ptr idx h; exact h
  | cons raw rest ih =>
    intro st uri ptr idx h
    unfold materializeElemsGen
    split
    · exact h
    · rename_i nd c1 heq
      dsimp only
      split
      · rename_i e st2 heq2
        have h2 := hrec { st with cache := c1 }
          (posixJoin2 ptr (parse_segment (toString idx))) nd h
        rw [heq2] at h2
        exact h2
      · rename_i v st2 heq2
        have h2 := hrec { st with cache := c1 }
          (posixJoin2 ptr (parse_segment (toString idx))) nd h
        rw [heq2] at h2
        split
        · rename_i e st3 heq3
          have h3 := ih st2 uri ptr (idx + 1) h2
          rw [heq3] at h3
          exact h3
        · rename_i xs st3 heq3
          have h3 := ih st2 uri ptr (idx + 1) h2
          rw [heq3] at h3
          exact h3

/-- Helper: registering a fresh address preserves the
expansion-uniqueness invariant. -/
theorem expandOnceInv_register (st : MSt) (u : URI) (ptr : String)
    (hlk : st.repeatsMap.lookup u = none) (h : expandOnceInv st) :
    expandOnceInv
      { st with repeatsMap := st.repeatsMap ++ [(u, ⟨ptr, []⟩)],
                expLog := u :: st.expLog } := by
  obtain ⟨h1, h2, h3⟩ := h
  refine ⟨?_, ?_, ?_⟩
  · refine List.nodup_cons.mpr ⟨?_, h1⟩
    intro hmem
    have h4 := h2 _ hmem
    rw [hlk] at h4
    simp at h4
  · intro w hw
    rcases List.mem_cons.mp hw with h4 | h4
    · subst h4
      rw [lookup_append_isSome]
      simp [List.lookup]
    · rw [lookup_append_isSome]
      have h5 := h2 w h4
      simp [h5]
  · intro p hp
    rcases List.mem_append.mp hp with h4 | h4
    · exact List.mem_cons_of_mem _ (h3 p h4)
    · have h5 : p = (u, ⟨ptr, []⟩) := List.mem_singleton.mp h4
      rw [h5]
      exact List.mem_cons_self _ _

/-- Helper: recording an alias for an already-tracked address preserves the
expansion-uniqueness invariant. -/
theorem expandOnceInv_addAlias (st : MSt) (u : URI) (ptr : String)
    (h : expandOnceInv st) :
    expandOnceInv { st with repeatsMap := addAlias st.repeatsMap u ptr } := by
  obtain ⟨h1, h2, h3⟩ := h
  refine ⟨h1, ?_, ?_⟩
  · intro w hw
    rw [addAlias_lookup_isSome]
    exact h2 w hw
  · intro p hp
    obtain ⟨q, hq, hpq⟩ := addAlias_fst_mem _ _ _ p hp
    rw [hpq]
    exact h3 q hq

/-- Helper: pass 1 expands each distinct address at most once, at every
recursion budget. -/
theorem materializeRec_expPres (fetch : Fetch) (rfuel : Nat)
    (conf : MaterializeConf) :
    ∀ (mfuel : Nat) (st : MSt) (ptr : String) (nd : Node), expandOnceInv st →
      expandOnceInv (materializeRec fetch rfuel conf mfuel st ptr nd).2 := by
  intro mfuel
  induction mfuel with
  | zero => intro st ptr nd h; exact h
  | succ mfuel ih =>
    intro st ptr nd h
    cases nd with
    | value v => exact h
    | dict d =>
      unfold materializeRec
      split
      · exact expandOnceInv_addAlias st d.uri ptr h
      · rename_i hlk
        have hst1 := expandOnceInv_register st d.uri ptr hlk h
        split
        · exact hst1
        · dsimp only
          split
          · rename_i e st2 heq
            have h3 := materializeItemsGen_expPres fetch rfuel conf _
              (fun s p n hh => ih s p n hh) d.data _ d.uri ptr hst1
            rw [heq] at h3
            exact h3
          · rename_i kvs st2 heq
            have h3 := materializeItemsGen_expPres fetch rfuel conf _
              (fun s p n hh => ih s p n hh) d.data _ d.uri ptr hst1
            rw [heq] at h3
            exact h3
    | list l =>
      unfold materializeRec
      split
      · exact expandOnceInv_addAlias st l.uri ptr h
      · rename_i hlk
        have hst1 := expandOnceInv_register st l.uri ptr hlk h
        dsimp only
        split
        · rename_i e st2 heq
          have h3 := materializeElemsGen_expPres fetch rfuel conf _
            (fun s p n hh => ih s p n hh) l.data _ l.uri ptr 0 hst1
          rw [heq] at h3
          exact h3
        · rename_i xs st2 heq
          have h3 := materializeElemsGen_expPres fetch rfuel conf _
            (fun s p n hh => ih s p n hh) l.data _ l.uri ptr 0 hst1
          rw [heq] at h3
          exact h3

/-- **C2.** Pass 1 of `materialize` expands each distinct address at most
once (repeat visits only record an alias and contribute the null
placeholder), so termination does not depend on the absence of reference
cycles; and on the cyclic document `a: {definitions: {foo: {$ref: "#/"}}}`
pass 1 terminates with `{definitions: {foo: null}}`, the fix-up data maps
alias `/definitions/foo` to the root, and consequently the positions
`/definitions` and `/definitions/foo/definitions` of the pass-2 result are
the same object (their canonical positions coincide). -/
theorem materialize_is_cycle_safe :
    (∀ (fetch : Fetch) (rfuel : Nat) (conf : MaterializeConf) (mfuel : Nat)
        (st : MSt) (ptr : String) (nd : Node), expandOnceInv st →
      expandOnceInv (materializeRec fetch rfuel conf mfuel st ptr nd).2) ∧
    (materializeCyclic.1 = .ok (.obj [("definitions", .obj [("foo", .null)])]) ∧
     materializeCyclic.2.repeatsMap =
       [(⟨none, "a", "/"⟩, ⟨"/", ["/definitions/foo"]⟩),
        (⟨none, "a", "/definitions"⟩, ⟨"/definitions", []⟩)] ∧
     canonSegs materializeCyclic.2.repeatsMap 4
         ["definitions", "foo", "definitions"]
       = canonSegs materializeCyclic.2.repeatsMap 4 ["definitions"]) := by
  refine ⟨?_, by rfl, by rfl, by rfl⟩
  intro fetch rfuel conf mfuel st ptr nd h
  exact materializeRec_expPres fetch rfuel conf mfuel st ptr nd h

/-- Witness for C2's universal part on the concrete cyclic view: the
expansion log of the finished pass 1 satisfies the invariant. -/
theorem materialize_is_cycle_safe_witness :
    expandOnceInv (materializeRec fetchCyclic 5
        ⟨id, none, [], none⟩ 6 ⟨CacheState.init, [], []⟩ "/"
        (.dict ⟨⟨none, "a", "/"⟩,
          [("definitions",
            .obj [("foo", .obj [("$ref", .str "#/")])])]⟩)).2 :=
  materialize_is_cycle_safe.1 fetchCyclic 5 ⟨id, none, [], none⟩ 6
    ⟨CacheState.init, [], []⟩ "/"
    (.dict ⟨⟨none, "a", "/"⟩,
      [("definitions", .obj [("foo", .obj [("$ref", .str "#/")])])]⟩)
    (by decide)

/-- Helper: `match_key` under the configuration `materialize` builds is
exactly the claimed formula: keep `k` iff (`include_keys` is empty or `k`
is in it) and `k` is not in `exclude_keys`. -/
theorem matchKey_confOf (include_keys exclude_keys : List String)
    (value_map : JSON → JSON)
    (lab : Option (String → String × JSON)) (k : String) :
    (confOf include_keys exclude_keys value_map lab).matchKey k
      = ((include_keys.isEmpty || include_keys.contains k)
          && !(exclude_keys.contains k)) := by
  cases include_keys with
  | nil =>
    cases exclude_keys with
    | nil => rfl
    | cons e es => simp [confOf, MaterializeConf.matchKey]
  | cons i is =>
    cases exclude_keys with
    | nil => simp [confOf, MaterializeConf.matchKey]
    | cons e es => simp [confOf, MaterializeConf.matchKey]

/-- Helper: merging an empty label dict is the identity. -/
theorem dictMerge_nil (b : List (String × JSON)) : dictMerge [] b = b := by
  unfold dictMerge
  simp only [List.map_nil, List.nil_append]
  exact List.filter_eq_self.mpr fun kv _ => rfl

/-- Helper: the keys of the assembled mapping children are exactly the
document keys passing the filter. -/
theorem materializeItemsGen_keys (fetch : Fetch) (rfuel : Nat)
    (conf : MaterializeConf)
    (recF : MSt → String → Node → Except Err JSON × MSt) :
    ∀ (lst : List (String × JSON)) (st : MSt) (uri : URI) (ptr : String)
      (kvs : List (String × JSON)) (st' : MSt),
      materializeItemsGen fetch rfuel conf recF st uri ptr lst
        = (.ok kvs, st') →
      ∀ k, ((kvs.lookup k).isSome = true) ↔
        ((lst.lookup k).isSome = true ∧ conf.matchKey k = true) := by
  intro lst
  induction lst with
  | nil =>
    intro st uri ptr kvs st' h k
    injection h with h1 h2
    injection h1 with h1
    subst h1
    simp [List.lookup]
  | cons kv rest ih =>
    rcases kv with ⟨k0, raw⟩
    intro st uri ptr kvs st' h k
    unfold materializeItemsGen at h
    split at h
    · injection h with h1 h2
      exact Except.noConfusion h1
    · rename_i nd c1 heq
      dsimp only at h
      split at h
      · rename_i hm
        split at h
        · injection h with h1 h2
          exact Except.noConfusion h1
        · rename_i v st2 heq2
          split at h
          · injection h with h1 h2
            exact Except.noConfusion h1
          · rename_i kvs1 st3 heq3
            injection h with h1 h2
            injection h1 with h1
            subst h1
            by_cases hk : k = k0
            · subst hk
              simp [List.lookup, hm]
            · have hbk : (k == k0) = false := by
                simpa using hk
              simp only [List.lookup, hbk]
              exact ih st2 uri ptr kvs1 st3 heq3 k
      · rename_i hm
        have hm2 : conf.matchKey k0 = false := by
          simpa using hm
        have hiff := ih _ _ _ _ _ h k
        by_cases hk : k = k0
        · subst hk
          constructor
          · intro hl
            have h4 := hiff.mp hl
            rw [hm2] at h4
            exact absurd h4.2 (by simp)
          · intro h4
            rw [hm2] at h4
            exact absurd h4.2 (by simp)
        · have hbk : (k == k0) = false := by
            simpa using hk
          simp only [List.lookup, hbk]
          exact hiff

/-- Helper: the assembled sequence has exactly one element per raw
element — the key filter never drops sequence elements. -/
theorem materializeElemsGen_length (fetch : Fetch) (rfuel : Nat)
    (conf : MaterializeConf)
    (recF : MSt → String → Node → Except Err JSON × MSt) :
    ∀ (lst : List JSON) (st : MSt) (uri : URI) (ptr : String) (idx : Nat)
      (xs : List JSON) (st' : MSt),
      materializeElemsGen fetch rfuel conf recF st uri ptr idx lst
        = (.ok xs, st') →
      xs.length = lst.length := by
  intro lst
  induction lst with
  | nil =>
    intro st uri ptr idx xs st' h
    injection h with h1 h2
    injection h1 with h1
    subst h1
    rfl
  | cons raw rest ih =>
    intro st uri ptr idx xs st' h
    unfold materializeElemsGen at h
    split at h
    · injection h with h1 h2
      exact Except.noConfusion h1
    · rename_i nd c1 heq
      dsimp only at h
      split at h
      · injection h with h1 h2
        exact Except.noConfusion h1
      · rename_i v st2 heq2
        split at h
        · injection h with h1 h2
          exact Except.noConfusion h1
        · rename_i xs1 st3 heq3
          injection h with h1 h2
          injection h1 with h1
          subst h1
          simp [ih st2 uri ptr (idx + 1) xs1 st3 heq3]

/-- **C7.** For every mapping node assembled by `materialize` with filter
options (and no labeller), a key is kept iff (`include_keys` is empty or
the key is in `include_keys`) and the key is not in `exclude_keys`; the
filter applies only at mapping levels: a sequence node always materializes
one output element per input element. -/
theorem materialize_filter_keeps_key_iff (fetch : Fetch) (rfuel : Nat)
    (include_keys exclude_keys : List String) (value_map : JSON → JSON)
    (mfuel : Nat) :
    (∀ (st : MSt) (ptr : String) (d : RefDictS) (out : JSON) (st' : MSt),
      st.repeatsMap.lookup d.uri = none →
      materializeRec fetch rfuel (confOf include_keys exclude_keys value_map none)
          (mfuel + 1) st ptr (.dict d) = (.ok out, st') →
      ∃ kvs, out = .obj kvs ∧ ∀ k, ((kvs.lookup k).isSome = true) ↔
        ((d.data.lookup k).isSome = true ∧
          ((include_keys.isEmpty || include_keys.contains k)
            && !(exclude_keys.contains k)) = true)) ∧
    (∀ (st : MSt) (ptr : String) (l : RefListS) (out : JSON) (st' : MSt),
      st.repeatsMap.lookup l.uri = none →
      materializeRec fetch rfuel (confOf include_keys exclude_keys value_map none)
          (mfuel + 1) st ptr (.list l) = (.ok out, st') →
      ∃ xs, out = .arr xs ∧ xs.length = l.data.length) := by
  constructor
  · intro st ptr d out st' hnew h
    unfold materializeRec at h
    rw [hnew] at h
    dsimp only at h
    rw [show (confOf include_keys exclude_keys value_map none).labelOf d.uri
        = .ok [] from rfl] at h
    dsimp only at h
    split at h
    · injection h with h1 h2
      exact Except.noConfusion h1
    · rename_i kvs st2 heq
      injection h with h1 h2
      injection h1 with h1
      subst h1
      refine ⟨kvs, by rw [dictMerge_nil], ?_⟩
      intro k
      rw [← matchKey_confOf include_keys exclude_keys value_map none k]
      exact materializeItemsGen_keys fetch rfuel _ _ d.data _ d.uri ptr kvs
        st2 heq k
  · intro st ptr l out st' hnew h
    unfold materializeRec at h
    rw [hnew] at h
    dsimp only at h
    split at h
    · injection h with h1 h2
      exact Except.noConfusion h1
    · rename_i xs st2 heq
      injection h with h1 h2
      injection h1 with h1
      subst h1
      exact ⟨xs, rfl,
        materializeElemsGen_length fetch rfuel _ _ l.data _ l.uri ptr 0 xs
          st2 heq⟩

/-- Witness for C7 on a concrete node with `include_keys = ["type"]`: the
sibling key is dropped, and a two-element sequence keeps both elements. -/
theorem materialize_filter_keeps_key_iff_witness :
    (∃ kvs, (materializeRec fetchConst 2 (confOf ["type"] [] id none) 3
        ⟨CacheState.init, [], []⟩ "/"
        (.dict ⟨⟨none, "w", "/"⟩,
          [("type", .str "object"), ("other", .num 1)]⟩)).1
      = .ok (.obj kvs) ∧ ∀ k, ((kvs.lookup k).isSome = true) ↔
        ((([("type", JSON.str "object"), ("other", JSON.num 1)].lookup k).isSome
            = true) ∧
          ((List.isEmpty ["type"] || List.contains ["type"] k)
            && !(List.contains ([] : List String) k)) = true)) ∧
    (∃ xs, (materializeRec fetchConst 2 (confOf ["type"] [] id none) 3
        ⟨CacheState.init, [], []⟩ "/"
        (.list ⟨⟨none, "w", "/"⟩, [.num 1, .num 2]⟩)).1
      = .ok (.arr xs) ∧ xs.length = 2) := by
  constructor
  · obtain ⟨kvs, hkvs, hprop⟩ :=
      (materialize_filter_keeps_key_iff fetchConst 2 ["type"] [] id 2).1
        ⟨CacheState.init, [], []⟩ "/"
        ⟨⟨none, "w", "/"⟩, [("type", .str "object"), ("other", .num 1)]⟩
        _ _ (by rfl) (by rfl)
    exact ⟨kvs, by rw [← hkvs]; rfl, hprop⟩
  · obtain ⟨xs, hxs, hlen⟩ :=
      (materialize_filter_keeps_key_iff fetchConst 2 ["type"] [] id 2).2
        ⟨CacheState.init, [], []⟩ "/"
        ⟨⟨none, "w", "/"⟩, [.num 1, .num 2]⟩ _ _ (by rfl) (by rfl)
    exact ⟨xs, by rw [← hxs]; rfl, hlen⟩

/-- Helper: in a merged dict, a label key that collides with an assembled
document key gets the document's value. -/
theorem dictMerge_label_overridden (k : String) (v w : JSON)
    (b : List (String × JSON)) (hw : b.lookup k = some w) :
    (dictMerge [(k, v)] b).lookup k = some w := by
  simp [dictMerge, List.lookup, hw]

/-- **C10.** When `materialize` runs with a labeller whose produced pair is
`(k, v)` at some mapping node being expanded, the output mapping is the
Python merge `{**label, **children}`; hence whenever `k` also survives
among the materialized document children with value `w`, the output maps
`k` to `w` — the document's value overrides the labeller's, because the
label pair is merged before the filtered document entries. -/
theorem materialize_document_overrides_label (fetch : Fetch) (rfuel : Nat)
    (conf : MaterializeConf) (mfuel : Nat) (st : MSt) (ptr : String)
    (d : RefDictS) (out : JSON) (st' : MSt) (k : String) (v : JSON)
    (hnew : st.repeatsMap.lookup d.uri = none)
    (hlab : conf.labelOf d.uri = .ok [(k, v)])
    (hrun : materializeRec fetch rfuel conf (mfuel + 1) st ptr (.dict d)
      = (.ok out, st')) :
    ∃ kvs, out = .obj (dictMerge [(k, v)] kvs) ∧
      ∀ w, kvs.lookup k = some w →
        (dictMerge [(k, v)] kvs).lookup k = some w := by
  unfold materializeRec at hrun
  rw [hnew] at hrun
  dsimp only at hrun
  rw [hlab] at hrun
  dsimp only at hrun
  split at hrun
  · injection hrun with h1 h2
    exact Except.noConfusion h1
  · rename_i kvs st2 heq
    injection hrun with h1 h2
    injection h1 with h1
    subst h1
    exact ⟨kvs, rfl, fun w hw => dictMerge_label_overridden k v w kvs hw⟩

/-- Witness for C10: labeller key `t` collides with document key `t`; the
output maps `t` to the document's value `3`, not the label `w#/`. -/
theorem materialize_document_overrides_label_witness :
    ∃ kvs,
      (materializeRec fetchConst 2
          (confOf [] [] id (some fun s => ("t", .str s))) 3
          ⟨CacheState.init, [], []⟩ "/"
          (.dict ⟨⟨none, "w", "/"⟩, [("t", .num 3)]⟩)).1
        = .ok (.obj (dictMerge [("t", .str "w#/")] kvs)) ∧
      ∀ w, kvs.lookup "t" = some w →
        (dictMerge [("t", .str "w#/")] kvs).lookup "t" = some w := by
  obtain ⟨kvs, hkvs, hprop⟩ :=
    materialize_document_overrides_label fetchConst 2
      (confOf [] [] id (some fun s => ("t", .str s))) 2
      ⟨CacheState.init, [], []⟩ "/" ⟨⟨none, "w", "/"⟩, [("t", .num 3)]⟩
      _ _ "t" (.str "w#/") (by rfl) (by rfl) (by rfl)
  exact ⟨kvs, by rw [← hkvs]; rfl, hprop⟩

end JsonRefDict
